import Mathlib

/-!
# Verification of the gh-projects-charts sprint pipeline

Shallow embedding of the core pipeline of `src/main.py` (class
`Chart_generator`) and `src/burndown_chart.py` (class `BurndownChart`):

* `create_dates`   — the inclusive sprint-window builder (`Chart_generator.create_dates`);
* `filter_on_sprint` — the sprint-overlap issue filter (`Chart_generator.filter_on_sprint`);
* `prep_data_for_burndown_chart` — the per-day open-issue series builder
  (`Chart_generator.prep_data_for_burndown_chart`, identical to
  `BurndownChart.__prepare_burndown_data`);
* `ideal_line`     — the ideal-burndown reference line
  (`Chart_generator.plot_burndown_chart` / `BurndownChart.plot_burndown_chart`);
* `format_times`   — the timestamp-normalization pass (`Chart_generator.format_times`)
  together with `utc_to_date` from `src/util.py`.

Modelling conventions:

* Calendar days are modelled as natural-number day ordinals (`Nat`).  After
  normalization every date field of an issue holds a `"DD-MM-YYYY"` string;
  `datetime.strptime(s, "%d-%m-%Y").date()` and `date.strftime("%d-%m-%Y")`
  are mutually inverse bijections between those strings and calendar days,
  and `date` comparison / `timedelta(days=1)` correspond to `≤` / successor
  on ordinals, so the day-level functions are stated directly on `Nat`.
* A Python issue record is a dict.  Its `"content"` key can be absent, can
  hold JSON `null` (Python `None`), or can hold a mapping; these three cases
  are the constructors of `ContentField`.  The distinction is observable:
  `issue.get("content", {})` (used by `filter_on_sprint`) turns an absent key
  into `{}` but passes `None` through, after which `None.get("createdAt")`
  raises `AttributeError`, whereas `issue.get("content") or {}` (used by the
  series builder) turns both into `{}`.
* The `labels` and `sprintTag` attributes of the spec's data model are carried
  on the issue record so that (in)dependence of the filters on them is
  expressible; no function of the source reads them.
* Fallible code is embedded in `Except String`; the error string names the
  Python exception class.
-/

/-- A normalized issue `content` mapping at day granularity: the `createdAt`
and `closedAt` keys (each possibly absent), dates as day ordinals. -/
structure Content where
  createdAt : Option Nat
  closedAt : Option Nat
deriving DecidableEq, Repr

/-- The `content` key of an issue record: absent, JSON `null`, or a mapping. -/
inductive ContentField where
  | absent
  | null
  | dict (c : Content)
deriving DecidableEq, Repr

/-- An issue record as consumed by the day-level pipeline stages.  `labels`
and `sprintTag` are carried from the raw record; no source function reads
them. -/
structure Issue where
  content : ContentField
  labels : List String
  sprintTag : Option Nat
deriving DecidableEq, Repr

/-- Embedding of `Chart_generator.create_dates`: from the configured start and end day,
the inclusive list of days built by the `while current <= end_date` loop. -/
def create_dates (start_date end_date : Nat) : List Nat :=
  if start_date ≤ end_date then
    start_date :: create_dates (start_date + 1) end_date
  else
    []
termination_by end_date + 1 - start_date

/-- The loop body of `Chart_generator.filter_on_sprint` once a content
mapping is in hand: `created_s` absent ⇒ `continue` (drop); otherwise keep
iff `created <= self.end_date and (closed is None or closed >= self.start_date)`. -/
def keptBySprint (start_date end_date : Nat) (c : Content) : Bool :=
  match c.createdAt with
  | none => false
  | some created =>
    decide (created ≤ end_date) &&
      (match c.closedAt with
       | none => true
       | some closed => decide (start_date ≤ closed))

/-- The per-issue decision of `Chart_generator.filter_on_sprint`:
`content = issue.get("content", {})` defaults an absent key to `{}` but keeps
`None`, on which `content.get("createdAt")` raises `AttributeError`. -/
def sprintDecision (start_date end_date : Nat) (issue : Issue) : Except String Bool :=
  match issue.content with
  | .null => .error "AttributeError: NoneType object has no attribute get"
  | .absent => .ok (keptBySprint start_date end_date ⟨none, none⟩)
  | .dict c => .ok (keptBySprint start_date end_date c)

/-- Embedding of `Chart_generator.filter_on_sprint`: the `included` accumulation loop over
`issues`; an `AttributeError` raised mid-loop aborts the whole call. -/
def filter_on_sprint (start_date end_date : Nat) : List Issue → Except String (List Issue)
  | [] => .ok []
  | issue :: rest => do
    let kept ← sprintDecision start_date end_date issue
    let tail ← filter_on_sprint start_date end_date rest
    if kept then .ok (issue :: tail) else .ok tail

/-- Modelled from the spec: `buildWindow(start, end)` of §4.2, which fails
with `InvalidRange` when `start > end` (no such error exists in the source;
`Chart_generator.create_dates` is total). -/
def buildWindowSpec (start_date end_date : Nat) : Except String (List Nat) :=
  if start_date ≤ end_date then
    .ok (create_dates start_date end_date)
  else
    .error "InvalidRange"

/-- The `Burndown_data` dataclass of `src/main.py` (identical in
`src/burndown_chart.py`).  The source passes `unassigned_open_issues=None`,
so the field is modelled as an `Option`. -/
structure Burndown_data where
  total_issues : Nat
  dates : List Nat
  open_issues : List Nat
  unassigned_open_issues : Option (List Nat)
deriving DecidableEq, Repr

/-- The body of the inner loop of `Chart_generator.prep_data_for_burndown_chart`
(and of `BurndownChart.__prepare_burndown_data`): one step of the
`num_issues_open` accumulator.  `content = issue.get("content") or {}` turns
an absent key, `None`, and the (falsy) empty dict alike into the empty
mapping. -/
def openStep (day : Nat) (num_issues_open : Nat) (issue : Issue) : Nat :=
  let content : Content :=
    match issue.content with
    | .dict c => c
    | _ => ⟨none, none⟩
  match content.closedAt with
  | none => num_issues_open + 1
  | some date_value =>
    if day ≤ date_value then num_issues_open + 1 else num_issues_open

/-- The per-day loop of the series builder: `num_issues_open` accumulated over
`issues` starting from `0`. -/
def countOpenLoop (day : Nat) (issues : List Issue) : Nat :=
  issues.foldl (openStep day) 0

/-- Embedding of `Chart_generator.prep_data_for_burndown_chart` =
`BurndownChart.__prepare_burndown_data`: per-day open counts, total issue
count, and the day axis. -/
def prep_data_for_burndown_chart (dates : List Nat) (issues : List Issue) : Burndown_data :=
  { total_issues := issues.length
    dates := dates
    open_issues := dates.map (fun day => countOpenLoop day issues)
    unassigned_open_issues := none }

/-- The ideal-burndown reference line of `Chart_generator.plot_burndown_chart`
(and of `BurndownChart.plot_burndown_chart`), over the number `n` of plotted
dates; Python float arithmetic is modelled exactly in `ℚ`:
`[total_issues - (i * total_issues / (len(dates) - 1)) for i in range(len(dates))]`
when `len(dates) > 1`, else `[total_issues]`. -/
def ideal_line (total_issues : Nat) (n : Nat) : List ℚ :=
  if 1 < n then
    (List.range n).map
      (fun i : Nat => (total_issues : ℚ) - ((i : ℚ) * total_issues / ((n : ℚ) - 1)))
  else
    [(total_issues : ℚ)]

/-- A raw issue `content` mapping as fetched from the API: the `createdAt` and
`closedAt` keys hold timestamp strings when present; `extra` carries every
other key of the mapping. -/
structure RawContent where
  createdAt : Option String
  closedAt : Option String
  extra : List (String × String)
deriving DecidableEq, Repr

/-- The `content` key of a raw issue record: absent, JSON `null` (either way
`issue.get("content")` yields `None`, which is not a dict), or a mapping. -/
inductive RawContentField where
  | absent
  | null
  | dict (c : RawContent)
deriving DecidableEq, Repr

/-- A raw issue record as passed to `Chart_generator.format_times`; `extra`
carries every key of the record other than `"content"`. -/
structure RawIssue where
  content : RawContentField
  extra : List (String × String)
deriving DecidableEq, Repr

/-- Embedding of `util.utc_to_date`: convert an ISO8601 UTC timestamp `"YYYY-MM-DDThh:mm:ssZ"`
to `"DD-MM-YYYY"`.  `datetime.fromisoformat` followed by `strftime("%d-%m-%Y")`
is modelled at day granularity: the date is the first 10 characters of the
timestamp, reordered (parse failures on non-ISO8601 input are outside the
scope of the claims settled here). -/
def utc_to_date (ts : String) : String :=
  match (ts.take 10).splitOn "-" with
  | [y, m, d] => d ++ "-" ++ m ++ "-" ++ y
  | _ => ts

/-- The per-issue body of `Chart_generator.format_times`: skip the issue when
its content is not a dict; otherwise rewrite each of `self.date_keys =
["closedAt", "createdAt"]` through `utc_to_date` when present (`None` values
are skipped). -/
def formatIssue (issue : RawIssue) : RawIssue :=
  match issue.content with
  | .absent => issue
  | .null => issue
  | .dict content =>
    { issue with
      content := .dict
        { content with
          closedAt := match content.closedAt with
            | none => none
            | some v => some (utc_to_date v)
          createdAt := match content.createdAt with
            | none => none
            | some v => some (utc_to_date v) } }

/-- Embedding of `Chart_generator.format_times`: normalize the timestamps of every issue
in the list (the Python loop mutates in place and returns the same list;
modelled as the pointwise pure transform). -/
def format_times (issues : List RawIssue) : List RawIssue :=
  issues.map formatIssue

/-- The `createdAt` value reachable from an issue record: `some` only when the
content is a mapping carrying the key. -/
def contentCreatedAt (i : Issue) : Option Nat :=
  match i.content with
  | .dict c => c.createdAt
  | _ => none

/-- The `closedAt` value reachable from an issue record: `some` only when the
content is a mapping carrying the key. -/
def contentClosedAt (i : Issue) : Option Nat :=
  match i.content with
  | .dict c => c.closedAt
  | _ => none

/-- Replace the `createdAt` key of an issue whose content is a mapping; leave
other issue records unchanged. -/
def setCreated (v : Option Nat) (i : Issue) : Issue :=
  { i with
    content := match i.content with
      | .dict c => .dict { c with createdAt := v }
      | other => other }

/-- The sprint-overlap criterion as the specification states it: `createdAt`
is present, at most the window end, and `closedAt` is absent or at least the
window start. -/
def SprintKeepSpec (start_date end_date : Nat) (i : Issue) : Prop :=
  ∃ created, contentCreatedAt i = some created ∧ created ≤ end_date ∧
    (contentClosedAt i = none ∨ ∃ closed, contentClosedAt i = some closed ∧ start_date ≤ closed)

/-- Openness of an issue on a day as the specification states it: `closedAt`
absent, or the day at most `closedAt`. -/
def openOnSpec (day : Nat) (i : Issue) : Bool :=
  match contentClosedAt i with
  | none => true
  | some closed => decide (day ≤ closed)

theorem openStep_eq (day : Nat) (acc : Nat) (i : Issue) :
    openStep day acc i = acc + (if openOnSpec day i then 1 else 0) := by
  cases hc : i.content with
  | dict c =>
    cases hcl : c.closedAt with
    | none => simp [openStep, openOnSpec, contentClosedAt, hc, hcl]
    | some d => by_cases hd : day ≤ d <;>
        simp [openStep, openOnSpec, contentClosedAt, hc, hcl, hd]
  | absent => simp [openStep, openOnSpec, contentClosedAt, hc]
  | null => simp [openStep, openOnSpec, contentClosedAt, hc]

theorem countOpenLoop_eq_countP (day : Nat) (issues : List Issue) :
    countOpenLoop day issues = issues.countP (openOnSpec day) := by
  have key : ∀ (l : List Issue) (acc : Nat),
      l.foldl (openStep day) acc = acc + l.countP (openOnSpec day) := by
    intro l
    induction l with
    | nil => intro acc; simp
    | cons i is ih =>
      intro acc
      rw [List.foldl_cons, ih, openStep_eq, List.countP_cons]
      by_cases h : openOnSpec day i
      · simp only [h, if_true]
        omega
      · simp only [h, if_false]
        omega
  rw [countOpenLoop, key]
  omega

theorem countOpenLoop_le_length (day : Nat) (issues : List Issue) :
    countOpenLoop day issues ≤ issues.length := by
  rw [countOpenLoop_eq_countP]
  exact List.countP_le_length _

/-- The keep-decision of one loop iteration of `filter_on_sprint` on inputs
where it does not raise: `false` is recorded for `null` content only because
that case never reaches a decision (it raises). -/
def keptOk (start_date end_date : Nat) (i : Issue) : Bool :=
  match i.content with
  | .absent => keptBySprint start_date end_date ⟨none, none⟩
  | .null => false
  | .dict c => keptBySprint start_date end_date c

theorem sprintDecision_eq_ok (s e : Nat) (i : Issue) (h : i.content ≠ .null) :
    sprintDecision s e i = .ok (keptOk s e i) := by
  cases hc : i.content with
  | absent => simp [sprintDecision, keptOk, hc]
  | null => exact absurd hc h
  | dict c => simp [sprintDecision, keptOk, hc]

theorem keptOk_iff_spec (s e : Nat) (i : Issue) :
    keptOk s e i = true ↔ SprintKeepSpec s e i := by
  cases hc : i.content with
  | absent =>
    simp only [keptOk, hc, SprintKeepSpec, contentCreatedAt, keptBySprint]
    constructor
    · intro h; cases h
    · rintro ⟨created, hcr, -⟩; cases hcr
  | null =>
    simp only [keptOk, hc, SprintKeepSpec, contentCreatedAt]
    constructor
    · intro h; cases h
    · rintro ⟨created, hcr, -⟩; cases hcr
  | dict c =>
    simp only [keptOk, hc, SprintKeepSpec, contentCreatedAt, contentClosedAt, keptBySprint]
    cases hcr : c.createdAt with
    | none =>
      constructor
      · intro h; cases h
      · rintro ⟨created, hc2, -⟩; cases hc2
    | some created =>
      cases hcl : c.closedAt with
      | none =>
        constructor
        · intro h
          refine ⟨created, rfl, ?_, Or.inl rfl⟩
          simpa using h
        · rintro ⟨created2, hc2, hle, -⟩
          cases hc2
          simpa using hle
      | some closed =>
        constructor
        · intro h
          simp only [Bool.and_eq_true, decide_eq_true_eq] at h
          exact ⟨created, rfl, h.1, Or.inr ⟨closed, rfl, h.2⟩⟩
        · rintro ⟨created2, hc2, hle, hcl2⟩
          cases hc2
          rcases hcl2 with hnone | ⟨closed2, hc3, hge⟩
          · cases hnone
          · cases hc3
            simp [hle, hge]

theorem filter_on_sprint_ok (s e : Nat) (issues : List Issue)
    (h : ∀ i ∈ issues, i.content ≠ .null) :
    filter_on_sprint s e issues = .ok (issues.filter (keptOk s e)) := by
  induction issues with
  | nil => rfl
  | cons i is ih =>
    have hi : i.content ≠ .null := h i (List.mem_cons_self i is)
    have his : ∀ j ∈ is, j.content ≠ .null := fun j hj => h j (List.mem_cons_of_mem i hj)
    rw [filter_on_sprint, sprintDecision_eq_ok s e i hi, ih his, List.filter_cons]
    by_cases hk : keptOk s e i <;> simp [hk, Bind.bind, Except.bind]

theorem sprintDecision_congr (s e : Nat) (i j : Issue) (h : j.content = i.content) :
    sprintDecision s e j = sprintDecision s e i := by
  unfold sprintDecision
  rw [h]

theorem filter_on_sprint_map (s e : Nat) (f : Issue → Issue)
    (hf : ∀ i, (f i).content = i.content) (issues : List Issue) :
    filter_on_sprint s e (issues.map f)
      = Except.map (List.map f) (filter_on_sprint s e issues) := by
  induction issues with
  | nil => rfl
  | cons i is ih =>
    rw [List.map_cons, filter_on_sprint, filter_on_sprint,
      sprintDecision_congr s e i (f i) (hf i)]
    cases hd : sprintDecision s e i with
    | error msg => simp [Bind.bind, Except.bind, Except.map]
    | ok kept =>
      rw [ih]
      cases ht : filter_on_sprint s e is with
      | error msg => simp [Bind.bind, Except.bind, Except.map]
      | ok tail =>
        by_cases hk : kept <;> simp [hk, Bind.bind, Except.bind, Except.map]

theorem create_dates_eq_range' (s e : Nat) :
    create_dates s e = if s ≤ e then List.range' s (e + 1 - s) else [] := by
  induction s, e using create_dates.induct with
  | case1 s e h ih =>
    rw [create_dates]
    simp only [if_pos h, ih]
    by_cases h1 : s + 1 ≤ e
    · rw [if_pos h1]
      have h2 : e + 1 - s = (e + 1 - (s + 1)) + 1 := by omega
      rw [h2, List.range'_succ]
    · rw [if_neg h1]
      have hse : s = e := by omega
      subst hse
      have h2 : s + 1 - s = 1 := by omega
      rw [h2]
      rfl
  | case2 s e h =>
    rw [create_dates]
    simp only [if_neg h]

/-- C4 (confirmed): for every start ≤ end the window builder returns exactly
the ordered inclusive day sequence from start to end, of length
(end - start) + 1, which is at least 1 and exactly 1 when start = end. -/
theorem create_dates_window (s e : Nat) (h : s ≤ e) :
    create_dates s e = List.range' s (e - s + 1) ∧
    (∀ d : Nat, d ∈ create_dates s e ↔ s ≤ d ∧ d ≤ e) ∧
    (create_dates s e).length = (e - s) + 1 ∧
    1 ≤ (create_dates s e).length ∧
    (s = e → (create_dates s e).length = 1) := by
  have heq : create_dates s e = List.range' s (e - s + 1) := by
    rw [create_dates_eq_range', if_pos h]
    congr 1
    omega
  have hlen : (create_dates s e).length = (e - s) + 1 := by
    rw [heq, List.length_range']
  refine ⟨heq, ?_, hlen, ?_, ?_⟩
  · intro d
    rw [heq, List.mem_range'_1]
    omega
  · omega
  · intro hse
    rw [hlen]
    omega

/-- C4 witness: the window from day 3 to day 5 is [3, 4, 5]. -/
theorem create_dates_window_witness :
    create_dates 3 5 = List.range' 3 (5 - 3 + 1) ∧
    (∀ d : Nat, d ∈ create_dates 3 5 ↔ 3 ≤ d ∧ d ≤ 5) ∧
    (create_dates 3 5).length = (5 - 3) + 1 ∧
    1 ≤ (create_dates 3 5).length ∧
    (3 = 5 → (create_dates 3 5).length = 1) :=
  create_dates_window 3 5 (by decide)

/-- C3 (counterexample): invoked with start 5 > end 3 the window builder of
the source raises no error at all and returns the empty list, while the
`buildWindow` contract of the specification fails with `InvalidRange`. -/
theorem create_dates_reversed_counterexample :
    create_dates 5 3 = [] ∧ buildWindowSpec 5 3 = .error "InvalidRange" := by
  constructor
  · rw [create_dates_eq_range']
    decide
  · rfl

/-- C3 (amended): for every pair of days with start > end, the window builder
raises no error and returns the empty day sequence. -/
theorem create_dates_reversed_empty (s e : Nat) (h : e < s) :
    create_dates s e = [] := by
  rw [create_dates_eq_range', if_neg (by omega)]

/-- C3 witness: the builder invoked with start 7 > end 2 returns []. -/
theorem create_dates_reversed_empty_witness : create_dates 7 2 = [] :=
  create_dates_reversed_empty 7 2 (by decide)

/-- C1 (counterexample): an issue whose label list is ["bug", "task"] — first
label not "task" — is nevertheless kept by the filter stage (window [1, 5],
createdAt day 3), contradicting the claimed first-label-only task filter. -/
theorem label_filter_counterexample :
    filter_on_sprint 1 5 [⟨.dict ⟨some 3, none⟩, ["bug", "task"], none⟩]
      = .ok [⟨.dict ⟨some 3, none⟩, ["bug", "task"], none⟩] := rfl

/-- C1 (amended): the issue-filter stage applies no label filter at all —
replacing every issue's label list leaves the filter result unchanged
elementwise — and in particular issues labelled ["task", "bug"] and
["bug", "task"] are both included when they pass the sprint-overlap test. -/
theorem filter_on_sprint_ignores_labels (s e : Nat) (issues : List Issue) (l : List String) :
    filter_on_sprint s e (issues.map (fun i => { i with labels := l }))
      = Except.map (List.map (fun i => { i with labels := l }))
          (filter_on_sprint s e issues) ∧
    filter_on_sprint 1 5
        [⟨.dict ⟨some 3, none⟩, ["task", "bug"], none⟩,
         ⟨.dict ⟨some 4, none⟩, ["bug", "task"], none⟩]
      = .ok [⟨.dict ⟨some 3, none⟩, ["task", "bug"], none⟩,
             ⟨.dict ⟨some 4, none⟩, ["bug", "task"], none⟩] := by
  constructor
  · exact filter_on_sprint_map s e (fun i => { i with labels := l }) (fun i => rfl) issues
  · rfl

/-- C2 (counterexample): an issue carrying sprintTag 5 whose interval overlaps
the window is kept by the filter — the configured sprint identifier (7 in the
claim's scenario) is never consulted; `config["sprint"]` only feeds the chart
title — contradicting the claimed sprint-tag clause. -/
theorem sprint_tag_counterexample :
    filter_on_sprint 1 5 [⟨.dict ⟨some 3, none⟩, [], some 5⟩]
      = .ok [⟨.dict ⟨some 3, none⟩, [], some 5⟩] := rfl

/-- C2 (amended): the sprint filter never reads an issue's sprint tag —
replacing every issue's tag leaves the filter result unchanged elementwise —
so a tagged issue passes under exactly the same conditions as an untagged
one. -/
theorem filter_on_sprint_ignores_sprint_tag (s e : Nat) (issues : List Issue) (t : Option Nat) :
    filter_on_sprint s e (issues.map (fun i => { i with sprintTag := t }))
      = Except.map (List.map (fun i => { i with sprintTag := t }))
          (filter_on_sprint s e issues) ∧
    filter_on_sprint 1 5
        [⟨.dict ⟨some 3, none⟩, [], some 5⟩, ⟨.dict ⟨some 4, none⟩, [], none⟩]
      = .ok [⟨.dict ⟨some 3, none⟩, [], some 5⟩, ⟨.dict ⟨some 4, none⟩, [], none⟩] := by
  constructor
  · exact filter_on_sprint_map s e (fun i => { i with sprintTag := t }) (fun i => rfl) issues
  · rfl

/-- C5 (counterexample): an issue whose `content` key holds `null` — so its
`createdAt` is certainly missing — is not silently excluded: the filter
raises `AttributeError` (`issue.get("content", {})` only defaults an absent
key, and `None.get` then raises), aborting the whole call. -/
theorem filter_null_content_counterexample :
    filter_on_sprint 1 5 [⟨.null, [], none⟩]
      = .error "AttributeError: NoneType object has no attribute get" := rfl

/-- C5 (amended): on issue lists whose `content` keys are never `null`, the
sprint-overlap filter succeeds and keeps an issue exactly when `createdAt` is
present, at most the window end, and `closedAt` is absent or at least the
window start; an issue with `content` absent or with a content mapping
lacking `createdAt` is silently excluded.  (An issue whose `content` is
`null` instead raises `AttributeError`.) -/
theorem filter_on_sprint_keep_iff (s e : Nat) (issues : List Issue)
    (h : ∀ i ∈ issues, i.content ≠ .null) :
    ∃ kept, filter_on_sprint s e issues = .ok kept ∧
      (∀ i, i ∈ kept ↔ i ∈ issues ∧ SprintKeepSpec s e i) ∧
      (∀ i ∈ issues, contentCreatedAt i = none → i ∉ kept) := by
  refine ⟨issues.filter (keptOk s e), filter_on_sprint_ok s e issues h, ?_, ?_⟩
  · intro i
    rw [List.mem_filter, keptOk_iff_spec]
  · intro i _ hcr hmem
    rw [List.mem_filter, keptOk_iff_spec] at hmem
    obtain ⟨-, created, hc, -⟩ := hmem
    rw [hcr] at hc
    cases hc

/-- C5 witness: a window [1, 5] over one overlapping issue and one issue whose
content mapping lacks `createdAt`. -/
theorem filter_on_sprint_keep_iff_witness :
    ∃ kept, filter_on_sprint 1 5
        [⟨.dict ⟨some 3, none⟩, [], none⟩, ⟨.dict ⟨none, some 4⟩, [], none⟩] = .ok kept ∧
      (∀ i, i ∈ kept ↔
        i ∈ [(⟨.dict ⟨some 3, none⟩, [], none⟩ : Issue), ⟨.dict ⟨none, some 4⟩, [], none⟩] ∧
          SprintKeepSpec 1 5 i) ∧
      (∀ i ∈ [(⟨.dict ⟨some 3, none⟩, [], none⟩ : Issue), ⟨.dict ⟨none, some 4⟩, [], none⟩],
        contentCreatedAt i = none → i ∉ kept) :=
  filter_on_sprint_keep_iff 1 5
    [⟨.dict ⟨some 3, none⟩, [], none⟩, ⟨.dict ⟨none, some 4⟩, [], none⟩]
    (by decide)

/-- C6 (confirmed): each day's open count equals the number of issues whose
`closedAt` is absent or at least that day; the count never inspects
`createdAt` (rewriting every issue's `createdAt` leaves the series
unchanged); and the scenario of a 3-day window with one issue closed on day 2
yields open counts [1, 1, 0]. -/
theorem prep_open_counts (dates : List Nat) (issues : List Issue) :
    (prep_data_for_burndown_chart dates issues).open_issues
        = dates.map (fun day => issues.countP (openOnSpec day)) ∧
    (∀ v : Option Nat,
      (prep_data_for_burndown_chart dates (issues.map (setCreated v))).open_issues
        = (prep_data_for_burndown_chart dates issues).open_issues) ∧
    (prep_data_for_burndown_chart [1, 2, 3]
        [⟨.dict ⟨some 0, some 2⟩, [], none⟩]).open_issues = [1, 1, 0] := by
  have hopen : ∀ (v : Option Nat) (day : Nat) (i : Issue),
      openOnSpec day (setCreated v i) = openOnSpec day i := by
    intro v day i
    cases hc : i.content <;>
      simp [openOnSpec, contentClosedAt, setCreated, hc]
  refine ⟨?_, ?_, rfl⟩
  · simp only [prep_data_for_burndown_chart]
    exact List.map_congr_left (fun day _ => countOpenLoop_eq_countP day issues)
  · intro v
    simp only [prep_data_for_burndown_chart]
    refine List.map_congr_left (fun day _ => ?_)
    rw [countOpenLoop_eq_countP, countOpenLoop_eq_countP, List.countP_map]
    exact List.countP_congr (fun i _ => by rw [Function.comp_apply, hopen])

/-- C8 (confirmed): the series builder reports `total_issues` equal to the
number of issues it was given, and every per-day open count lies between 0
and that total. -/
theorem prep_total_and_bounds (dates : List Nat) (issues : List Issue) :
    (prep_data_for_burndown_chart dates issues).total_issues = issues.length ∧
    ∀ x ∈ (prep_data_for_burndown_chart dates issues).open_issues,
      0 ≤ x ∧ x ≤ (prep_data_for_burndown_chart dates issues).total_issues := by
  refine ⟨rfl, ?_⟩
  intro x hx
  simp only [prep_data_for_burndown_chart, List.mem_map] at hx
  obtain ⟨day, -, rfl⟩ := hx
  exact ⟨Nat.zero_le _, countOpenLoop_le_length day issues⟩

/-- C8 witness: a 2-day window over two issues, one of them closed on day 1. -/
theorem prep_total_and_bounds_witness :
    (prep_data_for_burndown_chart [1, 2]
        [⟨.absent, [], none⟩, ⟨.dict ⟨some 0, some 1⟩, [], none⟩]).total_issues = 2 ∧
    ∀ x ∈ (prep_data_for_burndown_chart [1, 2]
        [⟨.absent, [], none⟩, ⟨.dict ⟨some 0, some 1⟩, [], none⟩]).open_issues,
      0 ≤ x ∧ x ≤ (prep_data_for_burndown_chart [1, 2]
        [⟨.absent, [], none⟩, ⟨.dict ⟨some 0, some 1⟩, [], none⟩]).total_issues :=
  prep_total_and_bounds [1, 2] [⟨.absent, [], none⟩, ⟨.dict ⟨some 0, some 1⟩, [], none⟩]

/-- C9 (confirmed): an issue with no reachable `closedAt` — its `content`
absent, `null`, or a mapping lacking `closedAt` — is counted open by the
series builder on every day of the window: it adds 1 to `total_issues` and 1
to each day's open count, and this holds for every value of its `createdAt`
(the builder never inspects `createdAt`). -/
theorem prep_counts_closedless_issue_open (dates : List Nat) (issues : List Issue)
    (issue : Issue) (h : contentClosedAt issue = none) :
    (prep_data_for_burndown_chart dates (issue :: issues)).total_issues
        = (prep_data_for_burndown_chart dates issues).total_issues + 1 ∧
    (prep_data_for_burndown_chart dates (issue :: issues)).open_issues
        = ((prep_data_for_burndown_chart dates issues).open_issues).map (· + 1) ∧
    ∀ v : Option Nat,
      (prep_data_for_burndown_chart dates (setCreated v issue :: issues)).open_issues
        = ((prep_data_for_burndown_chart dates issues).open_issues).map (· + 1) := by
  have hset : ∀ v : Option Nat, contentClosedAt (setCreated v issue) = none := by
    intro v
    cases hc : issue.content <;>
      simp_all [contentClosedAt, setCreated, hc]
  have key : ∀ (j : Issue), contentClosedAt j = none →
      (prep_data_for_burndown_chart dates (j :: issues)).open_issues
        = ((prep_data_for_burndown_chart dates issues).open_issues).map (· + 1) := by
    intro j hj
    simp only [prep_data_for_burndown_chart, List.map_map]
    refine List.map_congr_left (fun day _ => ?_)
    rw [Function.comp_apply, countOpenLoop_eq_countP, countOpenLoop_eq_countP,
      List.countP_cons]
    have : openOnSpec day j = true := by rw [openOnSpec, hj]
    simp [this]
  exact ⟨rfl, key issue h, fun v => key (setCreated v issue) (hset v)⟩

/-- C9 witness: a null-content issue over a 2-day window with no other
issues. -/
theorem prep_counts_closedless_issue_open_witness :
    (prep_data_for_burndown_chart [1, 2] [(⟨.null, [], none⟩ : Issue)]).total_issues
        = (prep_data_for_burndown_chart [1, 2] ([] : List Issue)).total_issues + 1 ∧
    (prep_data_for_burndown_chart [1, 2] [(⟨.null, [], none⟩ : Issue)]).open_issues
        = ((prep_data_for_burndown_chart [1, 2] ([] : List Issue)).open_issues).map (· + 1) ∧
    ∀ v : Option Nat,
      (prep_data_for_burndown_chart [1, 2] [setCreated v ⟨.null, [], none⟩]).open_issues
        = ((prep_data_for_burndown_chart [1, 2] ([] : List Issue)).open_issues).map (· + 1) :=
  prep_counts_closedless_issue_open [1, 2] [] ⟨.null, [], none⟩ (by decide)

theorem ideal_line_getD (t n : Nat) (h : 1 < n) (i : Nat) (hi : i < n) :
    (ideal_line t n).getD i 0 = (t : ℚ) - ((i : ℚ) * t / ((n : ℚ) - 1)) := by
  rw [ideal_line, if_pos h, List.getD_eq_getElem?_getD, List.getElem?_map,
    List.getElem?_range hi, Option.map_some', Option.getD_some]

/-- C7 (confirmed): for a window of n > 1 days the ideal line is exactly
[totalIssues - i * totalIssues / (n - 1) for i in 0..n-1], a non-increasing
list of length n whose first element is totalIssues and whose last element is
0; for a window of a single day it is [totalIssues]. -/
theorem ideal_line_spec (t n : Nat) (h : 1 < n) :
    ideal_line t n
        = (List.range n).map (fun i : Nat => (t : ℚ) - ((i : ℚ) * t / ((n : ℚ) - 1))) ∧
    (ideal_line t n).length = n ∧
    (∀ i j : Nat, i ≤ j → j < n →
      (ideal_line t n).getD j 0 ≤ (ideal_line t n).getD i 0) ∧
    (ideal_line t n).getD 0 0 = (t : ℚ) ∧
    (ideal_line t n).getD (n - 1) 0 = 0 ∧
    ideal_line t 1 = [(t : ℚ)] := by
  have hn1 : (0 : ℚ) < (n : ℚ) - 1 := by
    have : (2 : ℚ) ≤ (n : ℚ) := by exact_mod_cast h
    linarith
  refine ⟨by rw [ideal_line, if_pos h], ?_, ?_, ?_, ?_, ?_⟩
  · rw [ideal_line, if_pos h, List.length_map, List.length_range]
  · intro i j hij hj
    rw [ideal_line_getD t n h j hj, ideal_line_getD t n h i (lt_of_le_of_lt hij hj)]
    have hnum : (i : ℚ) * t ≤ (j : ℚ) * t := by
      have hij' : (i : ℚ) ≤ (j : ℚ) := by exact_mod_cast hij
      have ht : (0 : ℚ) ≤ (t : ℚ) := by positivity
      exact mul_le_mul_of_nonneg_right hij' ht
    have := (div_le_div_iff_of_pos_right hn1).mpr hnum
    linarith
  · rw [ideal_line_getD t n h 0 (by omega)]
    simp
  · rw [ideal_line_getD t n h (n - 1) (by omega)]
    have hcast : ((n - 1 : Nat) : ℚ) = (n : ℚ) - 1 := by
      have : 1 ≤ n := by omega
      push_cast [Nat.cast_sub this]
      ring
    rw [hcast, mul_div_cancel_left₀ _ (ne_of_gt hn1), sub_self]
  · rw [ideal_line, if_neg (by omega)]

/-- C7 witness: the ideal line for 2 total issues over a 3-day window. -/
theorem ideal_line_spec_witness :
    ideal_line 2 3
        = (List.range 3).map
            (fun i : Nat => (((2 : Nat)) : ℚ) - ((i : ℚ) * ((2 : Nat)) / ((((3 : Nat)) : ℚ) - 1))) ∧
    (ideal_line 2 3).length = 3 ∧
    (∀ i j : Nat, i ≤ j → j < 3 →
      (ideal_line 2 3).getD j 0 ≤ (ideal_line 2 3).getD i 0) ∧
    (ideal_line 2 3).getD 0 0 = ((2 : Nat) : ℚ) ∧
    (ideal_line 2 3).getD (3 - 1) 0 = 0 ∧
    ideal_line 2 1 = [((2 : Nat) : ℚ)] :=
  ideal_line_spec 2 3 (by decide)

/-- C10 (confirmed): the timestamp-normalization pass maps the issue list
pointwise — same length, same order — and on each issue rewrites only the
`createdAt` and `closedAt` keys of the content mapping, each exactly when
present, leaving every other key of the content mapping and of the issue
record untouched; an issue whose content is not a mapping (absent or null)
is returned entirely unchanged. -/
theorem format_times_frame (issues : List RawIssue) :
    (format_times issues).length = issues.length ∧
    List.Forall₂ (fun i o =>
        o.extra = i.extra ∧
        (∀ c, i.content = .dict c →
          o.content = .dict
            { createdAt := c.createdAt.map utc_to_date
              closedAt := c.closedAt.map utc_to_date
              extra := c.extra }) ∧
        ((i.content = .absent ∨ i.content = .null) → o = i))
      issues (format_times issues) := by
  constructor
  · rw [format_times, List.length_map]
  · rw [format_times]
    induction issues with
    | nil => exact List.Forall₂.nil
    | cons i is ih =>
      rw [List.map_cons]
      refine List.Forall₂.cons ?_ ih
      obtain ⟨ic, iex⟩ := i
      cases ic with
      | absent =>
        refine ⟨rfl, ?_, fun _ => rfl⟩
        intro c hc2
        exact absurd hc2 (by simp)
      | null =>
        refine ⟨rfl, ?_, fun _ => rfl⟩
        intro c hc2
        exact absurd hc2 (by simp)
      | dict c0 =>
        obtain ⟨cr, cl, cex⟩ := c0
        refine ⟨rfl, ?_, ?_⟩
        · intro c hc2
          have hc3 : RawContentField.dict ⟨cr, cl, cex⟩ = RawContentField.dict c := hc2
          cases hc3
          cases cr with
          | none => cases cl <;> rfl
          | some v => cases cl <;> rfl
        · rintro (h1 | h1) <;> exact absurd h1 (by simp)
